import Mathlib

/-
Verification development for the pomodoro study-planner service (src/app.py).
The Python source is shallowly embedded: pure functions become Lean functions,
Python ints become Int/Nat, JSON numbers become Rat, the two pieces of shared
mutable state (the motivation cache and the session history) become explicit
state values threaded through step functions, and the external text-generation
capability becomes an oracle parameter.
-/

namespace Pomodoro

/-! ## String helpers mirroring the Python primitives used by app.py -/

/-- Model of Python str.lower() for the ASCII strings used by the planner. -/
def pyLower (s : String) : String := ⟨s.data.map Char.toLower⟩

/-- Whether the pattern is a leading segment of the haystack character list. -/
def startsWithL : List Char → List Char → Bool
  | [], _ => true
  | _ :: _, [] => false
  | p :: ps, h :: hs => p == h && startsWithL ps hs

/-- Model of the Python substring test pat in hay over character lists. -/
def hasSubL (hay pat : List Char) : Bool :=
  match hay with
  | [] => startsWithL pat []
  | _ :: hs => startsWithL pat hay || hasSubL hs pat

/-- Model of the Python expression pat in hay on strings. -/
def strIn (pat hay : String) : Bool := hasSubL hay.data pat.data

/-- Accumulator pass behind pyWords: split on whitespace, drop empty runs. -/
def pyWordsAux : List Char → List Char → List (List Char)
  | [], acc => if acc.isEmpty then [] else [acc.reverse]
  | c :: cs, acc =>
    if c.isWhitespace then
      if acc.isEmpty then pyWordsAux cs [] else acc.reverse :: pyWordsAux cs []
    else pyWordsAux cs (c :: acc)

/-- Model of Python str.split() with no arguments (maximal whitespace runs). -/
def pyWords (s : List Char) : List (List Char) := pyWordsAux s []

/-- Model of Python str.strip(): remove leading and trailing whitespace. -/
def pyStrip (s : String) : String :=
  ⟨((s.data.dropWhile Char.isWhitespace).reverse.dropWhile Char.isWhitespace).reverse⟩

/-! ## Categories (app.py lines 51-73) -/

inductive Category where
  | study
  | revision
  | assignment
deriving DecidableEq, Repr

/-- Per-category configuration from SimplifiedStudyPlanner.__init__. -/
structure CatConfig where
  icon : String
  name : String
  focus_time : Int
  break_time : Int
  keywords : List String
deriving DecidableEq, Repr

def categories : Category → CatConfig
  | .study =>
    ⟨"📖", "Study Session", 45, 10,
      ["read", "chapter", "textbook", "book", "learn", "understand", "study", "material"]⟩
  | .revision =>
    ⟨"🔄", "Review & Practice", 30, 5,
      ["review", "revise", "recall", "test", "exam", "quiz", "practice", "remember", "memorize"]⟩
  | .assignment =>
    ⟨"📋", "Assignment Work", 50, 15,
      ["write", "essay", "project", "assignment", "homework", "solve", "complete", "create", "build"]⟩

/-- Dict insertion order of self.categories, which is also iteration order. -/
def category_order : List Category := [.study, .revision, .assignment]

def categoryStr : Category → String
  | .study => "study"
  | .revision => "revision"
  | .assignment => "assignment"

/-! ## Goal analyzer (app.py lines 82-146) -/

/-- Keyword score of one category: substring hits plus the exact-token bonus. -/
def cat_score (goal_lower : String) (c : Category) : Nat :=
  let cfg := categories c
  let base := (cfg.keywords.filter (fun k => strIn k goal_lower)).length
  let bonus :=
    if cfg.keywords.any (fun k => (pyWords goal_lower.data).any (fun w => w == k.data)) then 2
    else 0
  base + bonus

/-- Detected category and its confidence: the first maximal positive score in
dict iteration order, defaulting to study with confidence 0. -/
def detect_category (goal_lower : String) : Category × Nat :=
  let scored := category_order.map (fun c => (c, cat_score goal_lower c))
  match scored.filter (fun p => 0 < p.2) with
  | [] => (.study, 0)
  | q :: qs => qs.foldl (fun acc p => if acc.2 < p.2 then p else acc) q

/-- Subject table in its Python dict insertion order. -/
def subjects : List (String × List String) :=
  [("mathematics", ["math", "calculus", "algebra", "statistics", "geometry", "trigonometry", "equations"]),
   ("science", ["physics", "chemistry", "biology", "lab", "experiment", "scientific", "molecules"]),
   ("language", ["english", "literature", "writing", "essay", "grammar", "reading", "composition"]),
   ("history", ["history", "historical", "timeline", "events", "civilization", "war", "ancient"]),
   ("programming", ["code", "programming", "python", "javascript", "algorithm", "software", "development"]),
   ("business", ["business", "economics", "finance", "marketing", "management", "accounting"]),
   ("art", ["art", "design", "drawing", "painting", "creative", "visual", "aesthetic"])]

def detect_subject (goal : String) : String :=
  match subjects.find? (fun p => p.2.any (fun k => strIn k goal)) with
  | some p => p.1
  | none => "general"

def hard_indicators : List String :=
  ["advanced", "complex", "difficult", "comprehensive", "detailed", "analyze", "synthesize"]

def easy_indicators : List String :=
  ["basic", "simple", "introduction", "overview", "quick", "summary", "skim"]

def estimate_difficulty (goal_lower : String) : String :=
  let hs := (hard_indicators.filter (fun w => strIn w goal_lower)).length
  let es := (easy_indicators.filter (fun w => strIn w goal_lower)).length
  if es < hs then "challenging"
  else if hs < es then "manageable"
  else "moderate"

/-- Result shape of analyze_goal_smart. -/
structure Analysis where
  category : Category
  subject : String
  confidence : Nat
  difficulty : String
  goal_length : Nat
deriving DecidableEq, Repr

def analyze_goal_smart (goal : String) : Analysis :=
  let gl := pyLower goal
  let dc := detect_category gl
  ⟨dc.1, detect_subject gl, dc.2, estimate_difficulty gl, (pyWords goal.data).length⟩

/-! ## Timing adjuster (app.py lines 212-233) -/

inductive SessionLen where
  | short
  | medium
  | long
deriving DecidableEq, Repr

def session_patterns : SessionLen → List String
  | .short => ["warmup", "main"]
  | .medium => ["warmup", "main", "deep"]
  | .long => ["warmup", "main", "main", "deep"]

structure Timing where
  focus_time : Int
  break_time : Int
deriving DecidableEq, Repr

/-- The slice focus_history[-5:] (the whole list when shorter than 5). -/
def recent_focus (fh : List ℚ) : List ℚ :=
  if 5 ≤ fh.length then fh.drop (fh.length - 5) else fh

def mean_focus (fh : List ℚ) : ℚ :=
  (recent_focus fh).sum / ((recent_focus fh).length : ℚ)

def adjust_timings (config : CatConfig) (fh : List ℚ) : Timing :=
  if fh.length < 3 then ⟨config.focus_time, config.break_time⟩
  else if mean_focus fh < 3 then
    ⟨max 20 (config.focus_time - 15), min 20 (config.break_time + 5)⟩
  else if 4 < mean_focus fh then
    ⟨min 60 (config.focus_time + 15), max 5 config.break_time⟩
  else ⟨config.focus_time, config.break_time⟩

/-! ## Plan builder (app.py lines 148-332) -/

/-- duration_map.get(phase, base_duration) from _get_phase_duration. -/
def phase_base (phase : String) (base_duration : Int) : Int :=
  if phase = "warmup" then 15
  else if phase = "main" then base_duration
  else if phase = "deep" then base_duration + 15
  else base_duration

def get_phase_duration (phase : String) (base_duration : Int) (difficulty : String) : Int :=
  if difficulty = "challenging" then min 60 (phase_base phase base_duration + 10)
  else if difficulty = "manageable" then max 15 (phase_base phase base_duration - 5)
  else phase_base phase base_duration

def get_phase_task_name (phase : String) (a : Analysis) : String :=
  if a.subject = "general" then
    match a.category with
    | .study =>
      if phase = "warmup" then "Preview and organize materials"
      else if phase = "main" then "Read and take detailed notes"
      else if phase = "deep" then "Analyze and summarize concepts"
      else "Focus work session"
    | .revision =>
      if phase = "warmup" then "Quick review of previous work"
      else if phase = "main" then "Active recall and practice"
      else if phase = "deep" then "Test understanding thoroughly"
      else "Focus work session"
    | .assignment =>
      if phase = "warmup" then "Plan structure and gather resources"
      else if phase = "main" then "Work on main content"
      else if phase = "deep" then "Review and polish work"
      else "Focus work session"
  else
    match a.category with
    | .study =>
      if phase = "warmup" then "Preview and organize " ++ a.subject ++ " materials"
      else if phase = "main" then "Read and study " ++ a.subject ++ " content actively"
      else if phase = "deep" then "Analyze and master " ++ a.subject ++ " concepts"
      else "Work on " ++ a.subject ++ " " ++ phase ++ " task"
    | .revision =>
      if phase = "warmup" then "Quick " ++ a.subject ++ " review and setup"
      else if phase = "main" then "Practice and test " ++ a.subject ++ " recall"
      else if phase = "deep" then "Deep " ++ a.subject ++ " understanding check"
      else "Work on " ++ a.subject ++ " " ++ phase ++ " task"
    | .assignment =>
      if phase = "warmup" then "Plan and organize " ++ a.subject ++ " assignment"
      else if phase = "main" then "Work on " ++ a.subject ++ " assignment content"
      else if phase = "deep" then "Refine and finalize " ++ a.subject ++ " work"
      else "Work on " ++ a.subject ++ " " ++ phase ++ " task"

def general_activities (break_tag : String) : List String :=
  if break_tag = "long" then
    ["Take a refreshing walk outside", "Healthy snack and hydration",
     "Gentle stretching routine", "Brief mindfulness moment"]
  else
    ["Stretch and hydrate briefly", "Walk around and rest eyes", "Light breathing exercise"]

def category_breaks (c : Category) (break_tag : String) : List String :=
  match c with
  | .study =>
    if break_tag = "short" then ["Review notes quickly", "Organize study materials"]
    else ["Discuss concepts with someone", "Write quick summary"]
  | .revision =>
    if break_tag = "short" then ["Quick concept recall test", "Review flashcards"]
    else ["Explain concept out loud", "Create memory aids"]
  | .assignment => []

def get_smart_break_activity (break_tag : String) (break_index : Nat) (c : Category) : String :=
  let all := general_activities break_tag ++ category_breaks c break_tag
  all.getD (break_index % all.length) ""

/-- A plan element. Python work tasks carry a category and break tasks carry a
break subtype, so both are Option fields here. -/
structure Task where
  id : Nat
  name : String
  duration : Int
  type : String
  phase : String
  category : Option Category
  break_type : Option String
  icon : String
deriving DecidableEq, Repr

/-- break_duration of generate_base_plan: the adjusted break time, plus 5
minutes before the final phase of a pattern longer than two phases. -/
def break_duration (adjB : Int) (i n : Nat) : Int :=
  adjB + (if i = n - 2 ∧ 2 < n then 5 else 0)

/-- break_type of generate_base_plan: long for breaks of 15 minutes or more. -/
def break_tag (bd : Int) : String := if 15 ≤ bd then "long" else "short"

/-- The task-emitting loop of generate_base_plan: i is the phase index, n the
pattern length and tid the running task id. -/
def build_tasks (pat : List String) (n i tid : Nat) (a : Analysis) (adjF adjB : Int)
    (icon : String) : List Task :=
  match pat with
  | [] => []
  | phase :: rest =>
    if i < n - 1 then
      ⟨tid, get_phase_task_name phase a, get_phase_duration phase adjF a.difficulty,
        "work", phase, some a.category, none, icon⟩ ::
      ⟨tid + 1, get_smart_break_activity (break_tag (break_duration adjB i n)) i a.category,
        break_duration adjB i n, "break", "break", none,
        some (break_tag (break_duration adjB i n)), "☕"⟩ ::
      build_tasks rest n (i + 1) (tid + 2) a adjF adjB icon
    else
      ⟨tid, get_phase_task_name phase a, get_phase_duration phase adjF a.difficulty,
        "work", phase, some a.category, none, icon⟩ ::
      build_tasks rest n (i + 1) (tid + 1) a adjF adjB icon

structure Plan where
  success : Bool
  plan : List Task
  analysis : Analysis
  category : Category
  total_time : Int
  task_count : Nat
  break_count : Nat
  ai_enhanced : Bool
deriving DecidableEq, Repr

def plan_tasks (a : Analysis) (sl : SessionLen) (fh : List ℚ) : List Task :=
  build_tasks (session_patterns sl) (session_patterns sl).length 0 1 a
    (adjust_timings (categories a.category) fh).focus_time
    (adjust_timings (categories a.category) fh).break_time
    (categories a.category).icon

def generate_base_plan (a : Analysis) (sl : SessionLen) (fh : List ℚ) : Plan :=
  ⟨true, plan_tasks a sl fh, a, a.category,
    ((plan_tasks a sl fh).map (fun t => t.duration)).sum,
    ((plan_tasks a sl fh).filter (fun t => decide (t.type = "work"))).length,
    ((plan_tasks a sl fh).filter (fun t => decide (t.type = "break"))).length,
    false⟩

/-! ## Motivation fallback table and AI call (app.py lines 356-415) -/

/-- Result of the motivation generation routine, instrumented with whether the
phrase came from the local fallback table; the Python function returns only the
phrase (see generate_ai_motivation below). -/
structure MotivationResult where
  phrase : String
  fromFallback : Bool
deriving DecidableEq, Repr

/-- The category times focus-level fallback table, with the dict .get defaults
of the source: unknown categories read the study row and unknown focus levels
read the medium bucket. -/
def fallback_motivations (category fl : String) : List String :=
  if category = "revision" then
    if fl = "low" then
      ["Review and grow! 🌱", "Memory building time! 🧠", "Progress through practice! 📈"]
    else if fl = "high" then
      ["Memory mastery mode! 🧠", "Recall excellence! ⚡", "Knowledge champion! 🏆"]
    else ["Recall power up! ⚡", "Testing knowledge! 🎯", "Practice makes perfect! 💫"]
  else if category = "assignment" then
    if fl = "low" then
      ["Start creating! ✏️", "Build something great! 🏗️", "Progress beats perfection! 📈"]
    else if fl = "high" then
      ["Excellence in making! 🏆", "Create masterpiece! 🎨", "Peak productivity! ⚡"]
    else ["Creation mode on! ✨", "Making it happen! 🚀", "Productive flow time! 💫"]
  else
    if fl = "low" then
      ["Start small! 🌱", "One step forward! 👣", "You can do this! 💪"]
    else if fl = "high" then
      ["Unleash your potential! 🚀", "Master mode activated! 🔥", "Excellence awaits! ⭐"]
    else ["Focus time! 🎯", "Learning mode on! 📚", "Dive deep today! 🌊"]

/-- random.choice is modelled by an arbitrary index reduced modulo the bucket
length, so every possible choice is covered by some index. -/
def get_fallback_motivation (choice : Nat) (category fl : String) : String :=
  (fallback_motivations category fl).getD (choice % (fallback_motivations category fl).length) ""

/-- generate_ai_motivation with the external capability abstracted: mc says
whether the model object is configured; extRes is the text produced by the
external call, none meaning the call raised. Validation accepts at most 6
words and at most 30 characters after strip. -/
def generate_ai_motivationR (mc : Bool) (extRes : Option String) (choice : Nat)
    (category fl : String) : MotivationResult :=
  if mc = false then ⟨get_fallback_motivation choice category fl, true⟩
  else
    match extRes with
    | none => ⟨get_fallback_motivation choice category fl, true⟩
    | some rt =>
      if (pyWords (pyStrip rt).data).length ≤ 6 ∧ (pyStrip rt).data.length ≤ 30 then
        ⟨pyStrip rt, false⟩
      else ⟨get_fallback_motivation choice category fl, true⟩

/-- The phrase actually returned by the Python function. -/
def generate_ai_motivation (mc : Bool) (extRes : Option String) (choice : Nat)
    (category fl : String) : String :=
  (generate_ai_motivationR mc extRes choice category fl).phrase

/-! ## Motivation cache (app.py lines 334-354)

get_cached_motivation is decorated with functools.lru_cache(maxsize=100) and
additionally maintains the unbounded dict self.motivation_cache keyed by the
rendered string category_goalhash_focuslevel with a creation timestamp. The
lru layer is modelled as a most-recent-first association list of at most 100
entries: a hit moves the key to the front and skips the function body; a miss
runs the body and inserts the result at the front, dropping the last (least
recently used) entry when the layer is full. genCount counts invocations of
the generation routine, i.e. the opportunities for an external call. -/

structure CacheEntry where
  motivation : String
  timestamp : ℚ
deriving DecidableEq, Repr

structure MCKey where
  category : String
  goal_hash : String
  focus_level : String
deriving DecidableEq, Repr

def renderKey (k : MCKey) : String :=
  k.category ++ "_" ++ k.goal_hash ++ "_" ++ k.focus_level

structure MCState where
  lru : List (MCKey × String)
  dict : List (String × CacheEntry)
  genCount : Nat
deriving DecidableEq, Repr

def cache_expiry : ℚ := 3600

def dictFind (d : List (String × CacheEntry)) (key : String) : Option CacheEntry :=
  (d.find? (fun p => decide (p.1 = key))).map (fun p => p.2)

/-- Python dict assignment: overwrite in place if present, else append. -/
def dictSet (d : List (String × CacheEntry)) (key : String) (e : CacheEntry) :
    List (String × CacheEntry) :=
  if d.any (fun p => decide (p.1 = key)) then
    d.map (fun p => if p.1 = key then (key, e) else p)
  else d ++ [(key, e)]

def get_cached_motivation (gen : Nat → String) (t : ℚ) (k : MCKey) (s : MCState) :
    String × MCState :=
  match s.lru.find? (fun p => decide (p.1 = k)) with
  | some p =>
    (p.2, ⟨(k, p.2) :: s.lru.eraseP (fun q => decide (q.1 = k)), s.dict, s.genCount⟩)
  | none =>
    match dictFind s.dict (renderKey k) with
    | some e =>
      if t - e.timestamp < cache_expiry then
        (e.motivation,
          ⟨(k, e.motivation) :: (if 100 ≤ s.lru.length then s.lru.dropLast else s.lru),
            s.dict, s.genCount⟩)
      else
        (gen s.genCount,
          ⟨(k, gen s.genCount) :: (if 100 ≤ s.lru.length then s.lru.dropLast else s.lru),
            dictSet s.dict (renderKey k) ⟨gen s.genCount, t⟩, s.genCount + 1⟩)
    | none =>
      (gen s.genCount,
        ⟨(k, gen s.genCount) :: (if 100 ≤ s.lru.length then s.lru.dropLast else s.lru),
          dictSet s.dict (renderKey k) ⟨gen s.genCount, t⟩, s.genCount + 1⟩)

/-- Fold a sequence of (time, key) getMotivation calls over the cache state. -/
def run_motivation_calls (gen : Nat → String) (evs : List (ℚ × MCKey)) (s : MCState) : MCState :=
  evs.foldl (fun st ev => (get_cached_motivation gen ev.1 ev.2 st).2) s

/-! ## Plan enhancement (app.py lines 417-456) -/

/-- Round-half-to-even to an integer on exact rationals. This is the
tie-breaking rule shared by IEEE-754 binary64 arithmetic and Python round;
it is only a building block of the float model below, not itself the model
of Python round. -/
def rndHalfEven (q : ℚ) : Int :=
  let f : Int := Int.floor q
  let r : ℚ := q - (f : ℚ)
  if r < 1 / 2 then f
  else if 1 / 2 < r then f + 1
  else if f % 2 = 0 then f else f + 1

/-- Fuelled normalization pass: double the mantissa until it reaches 2^52. -/
def flScaleUp : Nat → ℚ → Int → ℚ × Int
  | 0, a, e => (a, e)
  | f + 1, a, e => if a < (2 : ℚ) ^ (52 : Nat) then flScaleUp f (a * 2) (e + 1) else (a, e)

/-- Fuelled normalization pass: halve the mantissa until it is below 2^53. -/
def flScaleDown : Nat → ℚ → Int → ℚ × Int
  | 0, a, e => (a, e)
  | f + 1, a, e => if (2 : ℚ) ^ (53 : Nat) ≤ a then flScaleDown f (a / 2) (e - 1) else (a, e)

/-- The IEEE-754 binary64 double nearest to q (round to nearest, ties to
even), as an exact rational: the magnitude is scaled into [2^52, 2^53), the
scaled mantissa is rounded half-to-even, and the grid is clamped at the
subnormal spacing 2^-1074. The fuel of 2200 covers the entire double range.
Overflow to infinity is not modelled; every quantity these claims evaluate
is far below the overflow threshold. -/
def fl64 (q : ℚ) : ℚ :=
  if q = 0 then 0
  else
    let a := |q|
    let p1 := flScaleUp 2200 a 0
    let p := flScaleDown 2200 p1.1 p1.2
    let e := min p.2 1074
    (if q < 0 then -1 else 1) * ((rndHalfEven (a * (2 : ℚ) ^ e) : Int) : ℚ) / (2 : ℚ) ^ e

/-- Python sum() over numbers held as doubles: a left fold of correctly
rounded additions. For integer focus scores (the 1-5 scale) every partial
sum is exact, matching Python exact integer summation on that case. -/
def pyFloatSum (l : List ℚ) : ℚ := l.foldl (fun acc x => fl64 (acc + x)) 0

/-- Python true division producing a double: the correctly rounded quotient. -/
def pyFloatDiv (a b : ℚ) : ℚ := fl64 (a / b)

/-- Python round(x, 1) for a float whose exact value is q: CPython rounds to
the closest multiple of 1/10 with ties to even, judged on the exact value of
the double (so the double 3.45000000000000017... obtained from 69/20 rounds
up to 3.5, and 71/20 whose double is below 3.55 rounds down to 3.5), and the
chosen decimal is stored back as the nearest double. -/
def pyRound1 (q : ℚ) : ℚ := fl64 (((rndHalfEven (q * 10) : Int) : ℚ) / 10)

/-- Display rendering of a rational to one decimal place with half-even
ties, used only to build the focus_adjustments display string (the theorems
below assert the enhanced plan flags, never this rendered text). -/
def fmt1 (q : ℚ) : String :=
  let n := rndHalfEven (q * 10)
  let a := n.natAbs
  (if n < 0 then "-" else "") ++ toString (a / 10) ++ "." ++ toString (a % 10)

def get_focus_insights (fh : List ℚ) : String :=
  if fh.length < 3 then "Building your focus profile..."
  else
    let recent := fh.drop (fh.length - 5)
    let avg := recent.sum / (recent.length : ℚ)
    if avg < 3 then "Optimized for focus building - shorter, manageable sessions"
    else if 4 < avg then "Extended sessions - you\x27re in great focus form!"
    else if 3 ≤ (recent.filter (fun f => decide (4 ≤ f))).length then
      "Consistent high focus - pushing your boundaries!"
    else "Balanced approach for your " ++ fmt1 avg ++ "/5 focus level"

/-- The enriched response of enhance_plan_with_ai: the base plan with its
ai_enhanced flag overwritten, plus motivation and focus_adjustments. The
normal path never sets fallback_used (only the top-level exception handler
of the /generate_plan route does), hence the none default. -/
structure EnhancedPlan where
  base : Plan
  motivation : String
  focus_adjustments : String
  fallback_used : Option Bool
deriving DecidableEq, Repr

def enhance_plan_with_ai (mc : Bool) (extRes : Option String) (choice : Nat) (t : ℚ)
    (s : MCState) (base_plan : Plan) (goal_hash : String) (fh : List ℚ) :
    EnhancedPlan × MCState :=
  let catS := categoryStr base_plan.category
  let fl :=
    if 3 ≤ fh.length then
      if (fh.drop (fh.length - 5)).sum / ((min 5 fh.length : Nat) : ℚ) < 3 then "low"
      else if 4 < (fh.drop (fh.length - 5)).sum / ((min 5 fh.length : Nat) : ℚ) then "high"
      else "medium"
    else "medium"
  let r := get_cached_motivation
    (fun _ => generate_ai_motivation mc extRes choice catS fl) t ⟨catS, goal_hash, fl⟩ s
  (⟨{ base_plan with ai_enhanced := mc }, r.1, get_focus_insights fh, none⟩, r.2)

/-! ## Session history store (app.py lines 586-592) and stats (594-630) -/

structure SessionRecord where
  completion_rate : ℚ
  focus_score : ℚ
  session_length : String
  task_type : String
  duration : ℚ
deriving DecidableEq, Repr

def record_session (h : List SessionRecord) (r : SessionRecord) : List SessionRecord :=
  if 50 < (h ++ [r]).length then (h ++ [r]).drop ((h ++ [r]).length - 50) else h ++ [r]

/-- The slice session_history[-20:]. -/
def recent20 (h : List SessionRecord) : List SessionRecord := h.drop (h.length - 20)

def focus_scores (h : List SessionRecord) : List ℚ := (recent20 h).map (fun s => s.focus_score)

def task_types (h : List SessionRecord) : List String := (recent20 h).map (fun s => s.task_type)

/-- Python max(set(categories), key=categories.count): order is the iteration
order of the set (a deduplication of cats), and max keeps the first element
attaining the maximal count in that order. -/
def pyMaxByCount (order : List String) (cats : List String) : String :=
  match order with
  | [] => "study"
  | x :: xs => xs.foldl (fun acc c => if cats.count acc < cats.count c then c else acc) x

structure Stats where
  total_sessions : Nat
  avg_focus : ℚ
  favorite_category : String
  total_study_time : ℚ
  streak : Option Nat
  recent_performance : Option (List ℚ)
deriving DecidableEq, Repr

/-- get_user_stats, parameterized by the iteration order of set(categories). -/
def get_user_stats (order : List String) (h : List SessionRecord) : Stats :=
  if h.isEmpty then ⟨0, 3, "study", 0, some 0, none⟩
  else
    ⟨h.length,
      pyRound1 (pyFloatDiv (pyFloatSum (focus_scores h)) (((focus_scores h).length : Nat) : ℚ)),
      (if (task_types h).isEmpty then "study" else pyMaxByCount order (task_types h)),
      ((recent20 h).map (fun s => s.duration)).sum,
      none,
      some (if 5 ≤ (focus_scores h).length then
              (focus_scores h).drop ((focus_scores h).length - 5)
            else focus_scores h)⟩

/-! ## Helper lemmas -/

lemma adjust_timings_bounds (c : Category) (fh : List ℚ) :
    20 ≤ (adjust_timings (categories c) fh).focus_time ∧
    (adjust_timings (categories c) fh).focus_time ≤ 60 ∧
    5 ≤ (adjust_timings (categories c) fh).break_time ∧
    (adjust_timings (categories c) fh).break_time ≤ 20 := by
  rcases c <;> unfold adjust_timings <;> split_ifs <;>
    exact ⟨by decide, by decide, by decide, by decide⟩

lemma phase_base_bounds (phase : String) (ft : Int) (h1 : 20 ≤ ft) (h2 : ft ≤ 60) :
    15 ≤ phase_base phase ft ∧ phase_base phase ft ≤ 75 := by
  unfold phase_base; split_ifs <;> omega

lemma get_phase_duration_bounds (phase difficulty : String) (ft : Int)
    (h1 : 20 ≤ ft) (h2 : ft ≤ 60) :
    15 ≤ get_phase_duration phase ft difficulty ∧ get_phase_duration phase ft difficulty ≤ 75 := by
  have hb := phase_base_bounds phase ft h1 h2
  unfold get_phase_duration
  split_ifs <;> omega

lemma build_tasks_mem (a : Analysis) (adjF adjB : Int) (icon : String) :
    ∀ (pat : List String) (n i tid : Nat) (t : Task),
      t ∈ build_tasks pat n i tid a adjF adjB icon →
      (t.type = "work" ∧ ∃ ph ∈ pat, t.duration = get_phase_duration ph adjF a.difficulty) ∨
      (t.type = "break" ∧ (t.duration = adjB ∨ t.duration = adjB + 5)) := by
  intro pat
  induction pat with
  | nil => intro n i tid t ht; simp [build_tasks] at ht
  | cons phase rest ih =>
    intro n i tid t ht
    rw [build_tasks] at ht
    by_cases hi : i < n - 1
    · rw [if_pos hi, List.mem_cons, List.mem_cons] at ht
      rcases ht with h | h | h
      · subst h; exact Or.inl ⟨rfl, phase, by simp, rfl⟩
      · subst h; right
        refine ⟨rfl, ?_⟩
        show break_duration adjB i n = adjB ∨ break_duration adjB i n = adjB + 5
        unfold break_duration
        by_cases hc : i = n - 2 ∧ 2 < n
        · right; rw [if_pos hc]
        · left; rw [if_neg hc]; omega
      · rcases ih n (i + 1) (tid + 2) t h with ⟨hw, ph, hph, hd⟩ | hb
        · exact Or.inl ⟨hw, ph, List.mem_cons_of_mem _ hph, hd⟩
        · exact Or.inr hb
    · rw [if_neg hi, List.mem_cons] at ht
      rcases ht with h | h
      · subst h; exact Or.inl ⟨rfl, phase, by simp, rfl⟩
      · rcases ih n (i + 1) (tid + 1) t h with ⟨hw, ph, hph, hd⟩ | hb
        · exact Or.inl ⟨hw, ph, List.mem_cons_of_mem _ hph, hd⟩
        · exact Or.inr hb

lemma length_filter_work_add_break :
    ∀ (l : List Task), (∀ t ∈ l, t.type = "work" ∨ t.type = "break") →
      (l.filter (fun t => decide (t.type = "work"))).length
        + (l.filter (fun t => decide (t.type = "break"))).length = l.length := by
  intro l
  induction l with
  | nil => simp
  | cons t ts ih =>
    intro h
    have ht := h t (by simp)
    have hts := ih (fun u hu => h u (List.mem_cons_of_mem _ hu))
    rcases ht with hw | hb
    · have hnb : t.type ≠ "break" := by rw [hw]; decide
      simp [List.filter_cons, hw, hnb]
      omega
    · have hnw : t.type ≠ "work" := by rw [hb]; decide
      simp [List.filter_cons, hb, hnw]
      omega

lemma record_session_eq (h : List SessionRecord) (r : SessionRecord) :
    record_session h r = (h ++ [r]).drop (h.length + 1 - 50) := by
  unfold record_session
  split_ifs with hl
  · congr 1
    simp [List.length_append]
  · have h0 : h.length + 1 - 50 = 0 := by
      simp [List.length_append] at hl
      omega
    rw [h0, List.drop_zero]

lemma record_session_length (h : List SessionRecord) (r : SessionRecord)
    (hle : h.length ≤ 50) : (record_session h r).length ≤ 50 := by
  unfold record_session
  split_ifs with hl <;> simp [List.length_append] at hl ⊢ <;> omega

lemma foldl_record (rs : List SessionRecord) :
    ∀ (h : List SessionRecord), h.length ≤ 50 →
      rs.foldl record_session h = (h ++ rs).drop (h.length + rs.length - 50) := by
  induction rs with
  | nil =>
    intro h hle
    have h0 : h.length + 0 - 50 = 0 := by omega
    have h1 : h.length - 50 = 0 := by omega
    simp [h0, h1]
  | cons r rs ih =>
    intro h hle
    rw [List.foldl_cons, ih (record_session h r) (record_session_length h r hle)]
    rw [record_session_eq h r]
    by_cases hc : h.length + 1 ≤ 50
    · have h0 : h.length + 1 - 50 = 0 := by omega
      rw [h0, List.drop_zero]
      have hlen : (h ++ [r]).length = h.length + 1 := by simp
      rw [hlen]
      have hidx : h.length + 1 + rs.length - 50 = h.length + (rs.length + 1) - 50 := by omega
      rw [hidx, List.append_assoc, List.singleton_append, List.length_cons]
    · have h50 : h.length = 50 := by omega
      have h1 : h.length + 1 - 50 = 1 := by omega
      rw [h1]
      have hlen : ((h ++ [r]).drop 1).length = 50 := by
        simp [List.length_drop, List.length_append]
        omega
      rw [hlen]
      have harith : 50 + rs.length - 50 = rs.length := by omega
      rw [harith]
      have hle1 : (1 : Nat) ≤ (h ++ [r]).length := by simp
      rw [show ((h ++ [r]).drop 1 ++ rs) = ((h ++ [r]) ++ rs).drop 1 from
        (List.drop_append_of_le_length hle1).symm]
      rw [List.drop_drop]
      have : (h ++ [r] ++ rs) = h ++ r :: rs := by simp
      rw [this]
      congr 1
      simp [List.length_append]
      omega

lemma foldl_argmax_mem (cnt : String → Nat) :
    ∀ (xs : List String) (x : String),
      xs.foldl (fun acc c => if cnt acc < cnt c then c else acc) x ∈ x :: xs := by
  intro xs
  induction xs with
  | nil => intro x; simp
  | cons c cs ih =>
    intro x
    rw [List.foldl_cons]
    by_cases hc : cnt x < cnt c
    · rw [if_pos hc]
      rcases List.mem_cons.1 (ih c) with h | h
      · rw [h]; simp
      · simp [List.mem_cons_of_mem, h]
    · rw [if_neg hc]
      rcases List.mem_cons.1 (ih x) with h | h
      · rw [h]; simp
      · simp [List.mem_cons_of_mem, h]

lemma foldl_argmax_le (cnt : String → Nat) :
    ∀ (xs : List String) (x : String), ∀ y ∈ x :: xs,
      cnt y ≤ cnt (xs.foldl (fun acc c => if cnt acc < cnt c then c else acc) x) := by
  intro xs
  induction xs with
  | nil =>
    intro x y hy
    rcases List.mem_cons.1 hy with h | h
    · rw [h, List.foldl_nil]
    · simp at h
  | cons c cs ih =>
    intro x y hy
    rw [List.foldl_cons]
    have hxa : cnt x ≤ cnt (if cnt x < cnt c then c else x) := by
      by_cases hc : cnt x < cnt c
      · rw [if_pos hc]; omega
      · rw [if_neg hc]
    have hca : cnt c ≤ cnt (if cnt x < cnt c then c else x) := by
      by_cases hc : cnt x < cnt c
      · rw [if_pos hc]
      · rw [if_neg hc]; omega
    have hacc := ih (if cnt x < cnt c then c else x)
      (if cnt x < cnt c then c else x) (by simp)
    rcases List.mem_cons.1 hy with h | h
    · rw [h]; exact le_trans hxa hacc
    · rcases List.mem_cons.1 h with h2 | h2
      · rw [h2]; exact le_trans hca hacc
      · exact ih (if cnt x < cnt c then c else x) y (List.mem_cons_of_mem _ h2)

lemma foldl_argmax_eq_or_lt (cnt : String → Nat) :
    ∀ (xs : List String) (x : String),
      xs.foldl (fun acc c => if cnt acc < cnt c then c else acc) x = x ∨
        cnt x < cnt (xs.foldl (fun acc c => if cnt acc < cnt c then c else acc) x) := by
  intro xs
  induction xs with
  | nil => intro x; exact Or.inl rfl
  | cons c cs ih =>
    intro x
    rw [List.foldl_cons]
    by_cases hc : cnt x < cnt c
    · rw [if_pos hc]
      rcases ih c with h | h
      · right; rw [h]; exact hc
      · right; omega
    · rw [if_neg hc]
      exact ih x

lemma foldl_argmax_first (cnt : String → Nat) :
    ∀ (xs : List String) (x : String),
      ∀ y ∈ (x :: xs).takeWhile
          (fun z => decide (z ≠ xs.foldl (fun acc c => if cnt acc < cnt c then c else acc) x)),
        cnt y < cnt (xs.foldl (fun acc c => if cnt acc < cnt c then c else acc) x) := by
  intro xs
  induction xs with
  | nil =>
    intro x y hy
    simp [List.takeWhile_cons] at hy
  | cons c cs ih =>
    intro x y hy
    rw [List.foldl_cons] at hy ⊢
    by_cases hc : cnt x < cnt c
    · simp only [if_pos hc] at hy ⊢
      by_cases hx : x = cs.foldl (fun acc c => if cnt acc < cnt c then c else acc) c
      · simp only [List.takeWhile_cons, ← hx] at hy
        simp at hy
      · simp only [List.takeWhile_cons] at hy
        rw [if_pos (decide_eq_true hx)] at hy
        rcases List.mem_cons.1 hy with h | h
        · subst h
          have hle := foldl_argmax_le cnt cs c c (by simp)
          omega
        · have hmem : y ∈ (c :: cs).takeWhile
              (fun z => decide (z ≠ cs.foldl (fun acc c => if cnt acc < cnt c then c else acc) c)) := by
            simp only [List.takeWhile_cons]
            exact h
          exact ih c y hmem
    · simp only [if_neg hc] at hy ⊢
      by_cases hx : x = cs.foldl (fun acc c => if cnt acc < cnt c then c else acc) x
      · simp only [List.takeWhile_cons, ← hx] at hy
        simp at hy
      · simp only [List.takeWhile_cons] at hy
        rw [if_pos (decide_eq_true hx)] at hy
        have hxm : cnt x < cnt (cs.foldl (fun acc c => if cnt acc < cnt c then c else acc) x) := by
          rcases foldl_argmax_eq_or_lt cnt cs x with he | hlt
          · exact absurd he.symm hx
          · exact hlt
        rcases List.mem_cons.1 hy with h | h
        · subst h; exact hxm
        · by_cases hcm : c = cs.foldl (fun acc c => if cnt acc < cnt c then c else acc) x
          · rw [← hcm] at h
            simp at h
          · rw [if_pos (decide_eq_true hcm)] at h
            rcases List.mem_cons.1 h with h2 | h2
            · subst h2; omega
            · have hmem : y ∈ (x :: cs).takeWhile
                  (fun z => decide (z ≠ cs.foldl (fun acc c => if cnt acc < cnt c then c else acc) x)) := by
                simp only [List.takeWhile_cons]
                rw [if_pos (decide_eq_true hx)]
                exact List.mem_cons_of_mem _ h2
              exact ih x y hmem


/-! ## Claim theorems -/

/-- C4: the timing adjuster returns the base timing unchanged for histories
with fewer than 3 entries; otherwise, with m the mean of the last min(5, len)
entries, m < 3.0 gives focus = max(20, base - 15) and break = min(20,
base break + 5), m > 4.0 gives focus = min(60, base + 15) with break unchanged
at base, and otherwise both are unchanged; the returned focus time always lies
in [20, 60] and the returned break time is at most 20. -/
theorem C4_adjust_timings (c : Category) (fh : List ℚ) :
    (fh.length < 3 →
      adjust_timings (categories c) fh = ⟨(categories c).focus_time, (categories c).break_time⟩) ∧
    (3 ≤ fh.length →
      (mean_focus fh < 3 → adjust_timings (categories c) fh =
        ⟨max 20 ((categories c).focus_time - 15), min 20 ((categories c).break_time + 5)⟩) ∧
      (4 < mean_focus fh → adjust_timings (categories c) fh =
        ⟨min 60 ((categories c).focus_time + 15), (categories c).break_time⟩) ∧
      (3 ≤ mean_focus fh → mean_focus fh ≤ 4 → adjust_timings (categories c) fh =
        ⟨(categories c).focus_time, (categories c).break_time⟩)) ∧
    (20 ≤ (adjust_timings (categories c) fh).focus_time ∧
      (adjust_timings (categories c) fh).focus_time ≤ 60 ∧
      (adjust_timings (categories c) fh).break_time ≤ 20) := by
  obtain ⟨b1, b2, b3, b4⟩ := adjust_timings_bounds c fh
  refine ⟨fun h => ?_, fun h3 => ⟨fun hm => ?_, fun hm => ?_, fun hm1 hm2 => ?_⟩, b1, b2, b4⟩ <;>
    rcases c <;> unfold adjust_timings <;> split_ifs <;>
      first | rfl | decide | omega | linarith

/-- Witness for C4 at the concrete low-focus history [1, 1, 1] for the study
category. -/
theorem C4_adjust_timings_witness :
    adjust_timings (categories Category.study) [1, 1, 1] =
      ⟨max 20 ((categories Category.study).focus_time - 15),
        min 20 ((categories Category.study).break_time + 5)⟩ :=
  (((C4_adjust_timings Category.study [1, 1, 1]).2.1 (by norm_num)).1
    (by norm_num [mean_focus, recent_focus]))

/-- C5: for every analysis, session length and focus history, the generated
plan reports a total duration equal to the sum of its task durations, its
work-task count plus break-task count equals its task count, and every task
has strictly positive duration. -/
theorem C5_plan_totals (a : Analysis) (sl : SessionLen) (fh : List ℚ) :
    (generate_base_plan a sl fh).total_time
        = (((generate_base_plan a sl fh).plan).map (fun t => t.duration)).sum ∧
    (generate_base_plan a sl fh).task_count + (generate_base_plan a sl fh).break_count
        = (generate_base_plan a sl fh).plan.length ∧
    (∀ t ∈ (generate_base_plan a sl fh).plan, 0 < t.duration) := by
  obtain ⟨b1, b2, b3, b4⟩ := adjust_timings_bounds a.category fh
  refine ⟨rfl, ?_, ?_⟩
  · have hall : ∀ t ∈ plan_tasks a sl fh, t.type = "work" ∨ t.type = "break" := by
      intro t ht
      rcases build_tasks_mem a (adjust_timings (categories a.category) fh).focus_time
          (adjust_timings (categories a.category) fh).break_time (categories a.category).icon
          (session_patterns sl) (session_patterns sl).length 0 1 t ht with ⟨hw, _⟩ | ⟨hb, _⟩
      · exact Or.inl hw
      · exact Or.inr hb
    exact length_filter_work_add_break (plan_tasks a sl fh) hall
  · intro t ht
    rcases build_tasks_mem a (adjust_timings (categories a.category) fh).focus_time
        (adjust_timings (categories a.category) fh).break_time (categories a.category).icon
        (session_patterns sl) (session_patterns sl).length 0 1 t ht with ⟨_, ph, _, hd⟩ | ⟨_, hd⟩
    · have hb := (get_phase_duration_bounds ph a.difficulty _ b1 b2).1
      rw [hd]; omega
    · rcases hd with hd | hd <;> rw [hd] <;> omega

def dummy_task : Task := ⟨0, "", 0, "", "", none, none, ""⟩

def wit_analysis : Analysis := ⟨.study, "general", 0, "moderate", 0⟩

/-- Witness for C5: the first task of a concrete short plan has positive
duration. -/
theorem C5_plan_totals_witness :
    0 < ((generate_base_plan wit_analysis .short []).plan.getD 0 dummy_task).duration :=
  (C5_plan_totals wit_analysis .short []).2.2 _ (by decide)

/-- C6: the goal Solve calculus homework problems with a medium session and
empty focus history is classified as assignment with subject mathematics, and
the plan follows warmup, main, deep with a break after each non-final phase,
giving exactly 5 tasks: 3 work and 2 break. -/
theorem C6_calculus_scenario :
    (analyze_goal_smart "Solve calculus homework problems").category = Category.assignment ∧
    (analyze_goal_smart "Solve calculus homework problems").subject = "mathematics" ∧
    ((generate_base_plan (analyze_goal_smart "Solve calculus homework problems") .medium []).plan.map
        (fun t => t.phase)) = ["warmup", "break", "main", "break", "deep"] ∧
    ((generate_base_plan (analyze_goal_smart "Solve calculus homework problems") .medium []).plan.map
        (fun t => t.type)) = ["work", "break", "work", "break", "work"] ∧
    (generate_base_plan (analyze_goal_smart "Solve calculus homework problems") .medium []).plan.length = 5 ∧
    (generate_base_plan (analyze_goal_smart "Solve calculus homework problems") .medium []).task_count = 3 ∧
    (generate_base_plan (analyze_goal_smart "Solve calculus homework problems") .medium []).break_count = 2 := by
  exact ⟨by decide, by decide, by decide, by decide, by decide, by decide, by decide⟩

/-- C7: record_session appends the new record and truncates to the most
recent 50; states of at most 50 records stay at most 50; and 60 sequential
record calls starting from the empty store leave exactly the last 50 records
in their original order (the oldest 10 dropped). -/
theorem C7_history_bound (h : List SessionRecord) (r : SessionRecord) (rs : List SessionRecord) :
    (record_session h r = (h ++ [r]).drop (h.length + 1 - 50)) ∧
    (h.length ≤ 50 → (record_session h r).length ≤ 50) ∧
    (rs.length = 60 → rs.foldl record_session [] = rs.drop 10) := by
  refine ⟨record_session_eq h r, record_session_length h r, fun h60 => ?_⟩
  rw [foldl_record rs [] (by simp)]
  simp [h60]

def c7_records : List SessionRecord :=
  (List.range 60).map (fun (i : Nat) => ⟨1, 3, "medium", "study", (i : ℚ)⟩)

/-- Witness for C7 on a concrete list of 60 records. -/
theorem C7_history_bound_witness :
    c7_records.foldl record_session [] = c7_records.drop 10 :=
  (C7_history_bound [] ⟨1, 3, "medium", "study", 0⟩ c7_records).2.2
    (by unfold c7_records; rw [List.length_map, List.length_range])

/-- C9: for every analysis, session length and focus history, the plan task
types strictly alternate starting with work (position i is work exactly when
i is even), the plan has 3, 5 or 7 tasks for short, medium, long (odd length,
so it also ends with work), task ids are consecutive 1..n, and the work count
exceeds the break count by one. -/
theorem C9_alternation (a : Analysis) (sl : SessionLen) (fh : List ℚ) :
    ((generate_base_plan a sl fh).plan.map (fun t => t.type)) =
      (List.range (generate_base_plan a sl fh).plan.length).map
        (fun i => if i % 2 = 0 then "work" else "break") ∧
    (generate_base_plan a sl fh).plan.length =
      (match sl with | .short => 3 | .medium => 5 | .long => 7) ∧
    ((generate_base_plan a sl fh).plan.map (fun t => t.id)) =
      (List.range (generate_base_plan a sl fh).plan.length).map (fun i => i + 1) ∧
    ((generate_base_plan a sl fh).plan.filter (fun t => decide (t.type = "work"))).length =
      ((generate_base_plan a sl fh).plan.filter (fun t => decide (t.type = "break"))).length + 1 := by
  rcases sl
  · refine ⟨?_, rfl, ?_, rfl⟩
    · have h1 : ((generate_base_plan a .short fh).plan.map (fun t => t.type))
          = ["work", "break", "work"] := rfl
      have h2 : (List.range (generate_base_plan a .short fh).plan.length).map
          (fun i => if i % 2 = 0 then "work" else "break") = ["work", "break", "work"] := by
        rw [show (generate_base_plan a .short fh).plan.length = 3 from rfl]
        decide
      exact h1.trans h2.symm
    · have h1 : ((generate_base_plan a .short fh).plan.map (fun t => t.id)) = [1, 2, 3] := rfl
      have h2 : (List.range (generate_base_plan a .short fh).plan.length).map (fun i => i + 1)
          = [1, 2, 3] := by
        rw [show (generate_base_plan a .short fh).plan.length = 3 from rfl]
        decide
      exact h1.trans h2.symm
  · refine ⟨?_, rfl, ?_, rfl⟩
    · have h1 : ((generate_base_plan a .medium fh).plan.map (fun t => t.type))
          = ["work", "break", "work", "break", "work"] := rfl
      have h2 : (List.range (generate_base_plan a .medium fh).plan.length).map
          (fun i => if i % 2 = 0 then "work" else "break")
          = ["work", "break", "work", "break", "work"] := by
        rw [show (generate_base_plan a .medium fh).plan.length = 5 from rfl]
        decide
      exact h1.trans h2.symm
    · have h1 : ((generate_base_plan a .medium fh).plan.map (fun t => t.id))
          = [1, 2, 3, 4, 5] := rfl
      have h2 : (List.range (generate_base_plan a .medium fh).plan.length).map (fun i => i + 1)
          = [1, 2, 3, 4, 5] := by
        rw [show (generate_base_plan a .medium fh).plan.length = 5 from rfl]
        decide
      exact h1.trans h2.symm
  · refine ⟨?_, rfl, ?_, rfl⟩
    · have h1 : ((generate_base_plan a .long fh).plan.map (fun t => t.type))
          = ["work", "break", "work", "break", "work", "break", "work"] := rfl
      have h2 : (List.range (generate_base_plan a .long fh).plan.length).map
          (fun i => if i % 2 = 0 then "work" else "break")
          = ["work", "break", "work", "break", "work", "break", "work"] := by
        rw [show (generate_base_plan a .long fh).plan.length = 7 from rfl]
        decide
      exact h1.trans h2.symm
    · have h1 : ((generate_base_plan a .long fh).plan.map (fun t => t.id))
          = [1, 2, 3, 4, 5, 6, 7] := rfl
      have h2 : (List.range (generate_base_plan a .long fh).plan.length).map (fun i => i + 1)
          = [1, 2, 3, 4, 5, 6, 7] := by
        rw [show (generate_base_plan a .long fh).plan.length = 7 from rfl]
        decide
      exact h1.trans h2.symm

/-- C10: every work task lasts at most 75 minutes and every break task at
most 25 minutes; the 75-minute cap is attained by a deep-phase task with
moderate difficulty and an adjusted focus time of 60 (the 60-minute cap of
get_phase_duration applies only under challenging difficulty). -/
theorem C10_duration_caps :
    (∀ (a : Analysis) (sl : SessionLen) (fh : List ℚ),
      ∀ t ∈ (generate_base_plan a sl fh).plan,
        (t.type = "work" → t.duration ≤ 75) ∧ (t.type = "break" → t.duration ≤ 25)) ∧
    ((generate_base_plan ⟨.study, "general", 0, "moderate", 3⟩ .medium [5, 5, 5]).plan.any
        (fun t => decide (t.type = "work" ∧ t.duration = 75)) = true) := by
  constructor
  · intro a sl fh t ht
    obtain ⟨b1, b2, b3, b4⟩ := adjust_timings_bounds a.category fh
    rcases build_tasks_mem a (adjust_timings (categories a.category) fh).focus_time
        (adjust_timings (categories a.category) fh).break_time (categories a.category).icon
        (session_patterns sl) (session_patterns sl).length 0 1 t ht with ⟨hw, ph, _, hd⟩ | ⟨hb, hd⟩
    · constructor
      · intro _
        have hub := (get_phase_duration_bounds ph a.difficulty _ b1 b2).2
        rw [hd]; omega
      · intro hbk
        rw [hw] at hbk
        exact absurd hbk (by decide)
    · constructor
      · intro hwk
        rw [hb] at hwk
        exact absurd hwk (by decide)
      · intro _
        rcases hd with hd | hd <;> rw [hd] <;> omega
  · have hadj : adjust_timings (categories Category.study) [5, 5, 5] = ⟨60, 10⟩ := by
      unfold adjust_timings
      rw [if_neg (by norm_num), if_neg (by norm_num [mean_focus, recent_focus]),
          if_pos (by norm_num [mean_focus, recent_focus])]
      decide
    show ((plan_tasks ⟨.study, "general", 0, "moderate", 3⟩ .medium [5, 5, 5]).any
        (fun t => decide (t.type = "work" ∧ t.duration = 75)) = true)
    unfold plan_tasks
    rw [show (⟨.study, "general", 0, "moderate", 3⟩ : Analysis).category = Category.study from rfl,
        hadj]
    decide

/-- Witness for the universally quantified part of C10 at a concrete task. -/
theorem C10_duration_caps_witness :
    ((generate_base_plan wit_analysis .short []).plan.getD 0 dummy_task).duration ≤ 75 :=
  (C10_duration_caps.1 wit_analysis .short [] _ (by decide)).1 (by decide)


/-- C8: get_user_stats with zero records returns the fixed default snapshot
(0 sessions, neutral focus 3.0, favorite study); otherwise, over the most
recent 20 records, it reports the session total, the average focus score
rounded to one decimal exactly as the program computes it (binary64
summation and division modelled exactly on rationals by fl64, then Python
round with ties to even on the exact value of that double), the total
duration, and as favorite category a most frequent task type, ties broken by
the first-encountered element of the set-iteration order (the parameter
order models the iteration order of Python set(categories)). -/
theorem C8_user_stats (order : List String) (h : List SessionRecord)
    (hset : ∀ c, c ∈ order ↔ c ∈ task_types h) :
    (h = [] → get_user_stats order h = ⟨0, 3, "study", 0, some 0, none⟩) ∧
    (h ≠ [] →
      (get_user_stats order h).total_sessions = h.length ∧
      (get_user_stats order h).avg_focus
        = pyRound1 (pyFloatDiv (pyFloatSum (focus_scores h)) (((focus_scores h).length : Nat) : ℚ)) ∧
      (get_user_stats order h).total_study_time = ((recent20 h).map (fun s => s.duration)).sum ∧
      (get_user_stats order h).favorite_category ∈ task_types h ∧
      (∀ y ∈ task_types h,
        (task_types h).count y ≤ (task_types h).count (get_user_stats order h).favorite_category) ∧
      (∀ y ∈ order.takeWhile (fun z => decide (z ≠ (get_user_stats order h).favorite_category)),
        (task_types h).count y
          < (task_types h).count (get_user_stats order h).favorite_category)) := by
  constructor
  · intro he; subst he; rfl
  · intro hne
    have hE : h.isEmpty = false := by
      cases h with
      | nil => exact absurd rfl hne
      | cons a l => rfl
    have hlenpos : 0 < h.length := by
      cases h with
      | nil => exact absurd rfl hne
      | cons a l => simp
    have hrec : recent20 h ≠ [] := by
      unfold recent20
      intro hcon
      rw [List.drop_eq_nil_iff] at hcon
      omega
    have htt : task_types h ≠ [] := by
      unfold task_types
      simpa using hrec
    have httE : (task_types h).isEmpty = false := by
      cases hc : task_types h with
      | nil => exact absurd hc htt
      | cons a l => rfl
    have hgs : get_user_stats order h = ⟨h.length,
        pyRound1 (pyFloatDiv (pyFloatSum (focus_scores h)) (((focus_scores h).length : Nat) : ℚ)),
        pyMaxByCount order (task_types h),
        ((recent20 h).map (fun s => s.duration)).sum,
        none,
        some (if 5 ≤ (focus_scores h).length then
            (focus_scores h).drop ((focus_scores h).length - 5)
          else focus_scores h)⟩ := by
      unfold get_user_stats
      rw [hE, httE]
      rfl
    obtain ⟨e, he⟩ : ∃ e, e ∈ task_types h := by
      cases hc : task_types h with
      | nil => exact absurd hc htt
      | cons a l => exact ⟨a, by simp⟩
    have heo : e ∈ order := (hset e).2 he
    obtain ⟨x, xs, horder⟩ : ∃ x xs, order = x :: xs := by
      cases order with
      | nil => simp at heo
      | cons x xs => exact ⟨x, xs, rfl⟩
    have hfav : (get_user_stats order h).favorite_category
        = xs.foldl (fun acc c => if (task_types h).count acc < (task_types h).count c
            then c else acc) x := by
      rw [hgs, horder]
      rfl
    refine ⟨by rw [hgs], by rw [hgs], by rw [hgs], ?_, ?_, ?_⟩
    · rw [hfav]
      have hmem := foldl_argmax_mem (fun c => (task_types h).count c) xs x
      exact (hset _).1 (by rw [horder]; exact hmem)
    · intro y hy
      rw [hfav]
      have hyo : y ∈ x :: xs := by rw [← horder]; exact (hset y).2 hy
      exact foldl_argmax_le (fun c => (task_types h).count c) xs x y hyo
    · intro y hy
      rw [hfav] at hy
      rw [horder] at hy
      rw [hfav]
      exact foldl_argmax_first (fun c => (task_types h).count c) xs x y hy

def c8_history : List SessionRecord := [⟨1, 4, "short", "study", 25⟩]

/-- Witness for C8 on a concrete one-record history. -/
theorem C8_user_stats_witness :
    (get_user_stats ["study"] c8_history).favorite_category ∈ task_types c8_history :=
  ((C8_user_stats ["study"] c8_history
      (by intro c; simp [task_types, recent20, c8_history])).2
    (by simp [c8_history])).2.2.2.1

/-- A key resident at the front of the LRU layer is returned without running
the body: no generation happens. -/
lemma get_cached_motivation_lru_hit (gen : Nat → String) (t : ℚ) (k : MCKey) (s : MCState)
    (v : String) (rest : List (MCKey × String)) (hs : s.lru = (k, v) :: rest) :
    (get_cached_motivation gen t k s).1 = v ∧
    (get_cached_motivation gen t k s).2.genCount = s.genCount := by
  unfold get_cached_motivation
  rw [hs, List.find?_cons_of_pos _ (by simp)]
  exact ⟨rfl, rfl⟩

/-- C1 (amended): the lru_cache memoization layer of get_cached_motivation
never grows beyond 100 entries, and a call with a key that is absent from a
full layer of exactly 100 entries inserts the new key and evicts precisely
the least-recently-used entry (the last in recency order). -/
theorem C1_lru_bound (gen : Nat → String) (t : ℚ) (k : MCKey) (s : MCState)
    (hle : s.lru.length ≤ 100) :
    (get_cached_motivation gen t k s).2.lru.length ≤ 100 ∧
    (s.lru.find? (fun p => decide (p.1 = k)) = none → s.lru.length = 100 →
      ∃ m, (get_cached_motivation gen t k s).2.lru = (k, m) :: s.lru.dropLast) := by
  unfold get_cached_motivation
  split
  next p hf =>
    have hmem := List.mem_of_find?_eq_some hf
    have hpa := List.find?_some hf
    have herase : (s.lru.eraseP (fun q => decide (q.1 = k))).length = s.lru.length - 1 :=
      List.length_eraseP_of_mem hmem hpa
    have hpos : 0 < s.lru.length := List.length_pos.2 (List.ne_nil_of_mem hmem)
    constructor
    · rw [List.length_cons, herase]
      omega
    · intro hnone
      rw [hf] at hnone
      exact absurd hnone (by simp)
  next hf =>
    split
    next e hd =>
      split
      next hexp =>
        constructor
        · by_cases h100 : 100 ≤ s.lru.length
          · rw [if_pos h100, List.length_cons, List.length_dropLast]; omega
          · rw [if_neg h100, List.length_cons]; omega
        · intro _ h100
          exact ⟨e.motivation, by rw [if_pos (by omega : 100 ≤ s.lru.length)]⟩
      next hexp =>
        constructor
        · by_cases h100 : 100 ≤ s.lru.length
          · rw [if_pos h100, List.length_cons, List.length_dropLast]; omega
          · rw [if_neg h100, List.length_cons]; omega
        · intro _ h100
          exact ⟨gen s.genCount, by rw [if_pos (by omega : 100 ≤ s.lru.length)]⟩
    next hd =>
      constructor
      · by_cases h100 : 100 ≤ s.lru.length
        · rw [if_pos h100, List.length_cons, List.length_dropLast]; omega
        · rw [if_neg h100, List.length_cons]; omega
      · intro _ h100
        exact ⟨gen s.genCount, by rw [if_pos (by omega : 100 ≤ s.lru.length)]⟩

def c1_gen : Nat → String := fun _ => "Focus time! 🎯"

def c1_key : MCKey := ⟨"study", "7", "medium"⟩

/-- Witness for C1 on the empty cache state. -/
theorem C1_lru_bound_witness :
    (get_cached_motivation c1_gen 0 c1_key ⟨[], [], 0⟩).2.lru.length ≤ 100 :=
  (C1_lru_bound c1_gen 0 c1_key ⟨[], [], 0⟩ (by decide)).1

def c1_events : List (ℚ × MCKey) :=
  (List.range 101).map (fun (i : Nat) => ((0 : ℚ), ⟨"study", toString i, "medium"⟩))

def c1_final : MCState := run_motivation_calls c1_gen c1_events ⟨[], [], 0⟩

set_option maxRecDepth 10000 in
/-- C1 counterexample: after 101 getMotivation calls with 101 distinct keys,
all at time 0, the motivation_cache dictionary holds 101 entries, every one
of them with timestamp 0 and hence unexpired (live); nothing is ever evicted
from it, so the claimed 100-entry bound on the motivation cache is false. -/
theorem C1_counterexample :
    c1_final.dict.length = 101 ∧
    c1_final.dict.all (fun e => decide (e.2.timestamp = 0)) = true := by
  constructor
  · decide
  · decide

/-- C2 (amended): a call whose key is resident in the LRU memoization layer
returns the memoized phrase with no external generation regardless of the
age of the stored entry; only when the key is not LRU-resident is the
timestamp dictionary consulted, and there an entry younger than 3600 seconds
is returned with no generation while an entry aged 3600 seconds or more is
treated as absent and triggers exactly one new generation; two consecutive
calls with an identical fresh key return the identical phrase at any time
distance and cause exactly one generation in total. -/
theorem C2_cache_ttl (gen : Nat → String) (t t2 : ℚ) (k : MCKey) (s : MCState) :
    (∀ p, s.lru.find? (fun q => decide (q.1 = k)) = some p →
      (get_cached_motivation gen t k s).1 = p.2 ∧
      (get_cached_motivation gen t k s).2.genCount = s.genCount) ∧
    (s.lru.find? (fun q => decide (q.1 = k)) = none →
      (∀ e, dictFind s.dict (renderKey k) = some e →
        (t - e.timestamp < cache_expiry →
          (get_cached_motivation gen t k s).1 = e.motivation ∧
          (get_cached_motivation gen t k s).2.genCount = s.genCount) ∧
        (cache_expiry ≤ t - e.timestamp →
          (get_cached_motivation gen t k s).1 = gen s.genCount ∧
          (get_cached_motivation gen t k s).2.genCount = s.genCount + 1)) ∧
      (dictFind s.dict (renderKey k) = none →
        (get_cached_motivation gen t k s).1 = gen s.genCount ∧
        (get_cached_motivation gen t k s).2.genCount = s.genCount + 1)) ∧
    (s.lru.find? (fun q => decide (q.1 = k)) = none →
      dictFind s.dict (renderKey k) = none →
      (get_cached_motivation gen t2 k (get_cached_motivation gen t k s).2).1 = gen s.genCount ∧
      (get_cached_motivation gen t2 k (get_cached_motivation gen t k s).2).2.genCount
        = s.genCount + 1) := by
  refine ⟨?_, ?_, ?_⟩
  · intro p hp
    constructor
    · show (get_cached_motivation gen t k s).1 = p.2
      unfold get_cached_motivation
      rw [hp]
    · show (get_cached_motivation gen t k s).2.genCount = s.genCount
      unfold get_cached_motivation
      rw [hp]
  · intro hf
    refine ⟨?_, ?_⟩
    · intro e he
      constructor
      · intro ht
        constructor
        · show (get_cached_motivation gen t k s).1 = e.motivation
          unfold get_cached_motivation
          simp only [hf, he]
          rw [if_pos ht]
        · show (get_cached_motivation gen t k s).2.genCount = s.genCount
          unfold get_cached_motivation
          simp only [hf, he]
          rw [if_pos ht]
      · intro ht
        constructor
        · show (get_cached_motivation gen t k s).1 = gen s.genCount
          unfold get_cached_motivation
          simp only [hf, he]
          rw [if_neg (not_lt.2 ht)]
        · show (get_cached_motivation gen t k s).2.genCount = s.genCount + 1
          unfold get_cached_motivation
          simp only [hf, he]
          rw [if_neg (not_lt.2 ht)]
    · intro hd
      constructor
      · show (get_cached_motivation gen t k s).1 = gen s.genCount
        unfold get_cached_motivation
        rw [hf, hd]
      · show (get_cached_motivation gen t k s).2.genCount = s.genCount + 1
        unfold get_cached_motivation
        rw [hf, hd]
  · intro hf hd
    have hs1 : (get_cached_motivation gen t k s).2.lru
        = (k, gen s.genCount) :: (if 100 ≤ s.lru.length then s.lru.dropLast else s.lru) := by
      unfold get_cached_motivation
      rw [hf, hd]
    have hg1 : (get_cached_motivation gen t k s).2.genCount = s.genCount + 1 := by
      unfold get_cached_motivation
      rw [hf, hd]
    have hr1 : (get_cached_motivation gen t k s).1 = gen s.genCount := by
      unfold get_cached_motivation
      rw [hf, hd]
    obtain ⟨h2a, h2b⟩ := get_cached_motivation_lru_hit gen t2 k
      (get_cached_motivation gen t k s).2 (gen s.genCount) _ hs1
    exact ⟨h2a, by rw [h2b, hg1]⟩

def c2_gen : Nat → String := fun n => toString n

def c2_key : MCKey := ⟨"study", "42", "medium"⟩

def c2_s1 : MCState := (get_cached_motivation c2_gen 0 c2_key ⟨[], [], 0⟩).2

def c2_r2 : String × MCState := get_cached_motivation c2_gen 4000 c2_key c2_s1

/-- Witness for C2 with a concrete fresh key called at times 0 and 4000. -/
theorem C2_cache_ttl_witness :
    c2_r2.1 = c2_gen 0 ∧ c2_r2.2.genCount = 1 :=
  (C2_cache_ttl c2_gen 0 4000 c2_key ⟨[], [], 0⟩).2.2 rfl rfl

/-- C2 counterexample: a key generated at time 0 and looked up again at time
4000 has a stored entry of age 4000, at least the 3600-second TTL, yet the
lookup returns the stored phrase and the generation count stays 1, so the
expired entry is not treated as absent on lookup as the claim states. -/
theorem C2_counterexample :
    dictFind c2_s1.dict (renderKey c2_key) = some ⟨"0", 0⟩ ∧
    cache_expiry ≤ (4000 : ℚ) - (0 : ℚ) ∧
    c2_r2.1 = "0" ∧
    c2_r2.2.genCount = 1 := by
  refine ⟨by decide, by norm_num [cache_expiry], by decide, by decide⟩

/-- C3 (amended): the enhanced plan's ai_enhanced flag equals exactly the
model-configured bit, and the normal path never sets fallback_used; hence a
degraded response produced while the model is configured (external call
failed or invalid) carries no degradation flag. -/
theorem C3_flag_semantics (mc : Bool) (extRes : Option String) (choice : Nat) (t : ℚ)
    (s : MCState) (bp : Plan) (gh : String) (fh : List ℚ) :
    (enhance_plan_with_ai mc extRes choice t s bp gh fh).1.base.ai_enhanced = mc ∧
    (enhance_plan_with_ai mc extRes choice t s bp gh fh).1.fallback_used = none :=
  ⟨rfl, rfl⟩

def c3_analysis : Analysis := analyze_goal_smart "Solve calculus homework problems"

def c3_base : Plan := generate_base_plan c3_analysis .medium []

def c3_res : EnhancedPlan × MCState :=
  enhance_plan_with_ai true none 0 0 ⟨[], [], 0⟩ c3_base "123" []

/-- C3 counterexample: with the model configured and the external call
failing, the returned plan's motivation is the local fallback-table phrase,
yet ai_enhanced is true and fallback_used is absent, so this degraded
response is indistinguishable from a full one, contradicting the claim. -/
theorem C3_counterexample :
    (generate_ai_motivationR true none 0 "assignment" "medium").fromFallback = true ∧
    c3_res.1.motivation = get_fallback_motivation 0 "assignment" "medium" ∧
    c3_res.1.motivation = "Creation mode on! ✨" ∧
    c3_res.1.base.ai_enhanced = true ∧
    c3_res.1.fallback_used = none := by
  refine ⟨by decide, by decide, by decide, by decide, by decide⟩

end Pomodoro
